import Mathlib

/-!
Shallow embedding of the astro.new redirect service request path
(`src/unnamed/part_000`): the listing cache (`getExamples`), the release
lookup cache (`getRelease`), the reference validator (`validateRef`), the
request parser (`parseReq`) and the top-level route handler (`get`).

Outbound HTTP is abstracted by an `Upstream` oracle; all mutable process
state (the two caches, the outbound call counters and the console logs)
is threaded explicitly through a `World` record.
-/

namespace AstroNew

/-- One template entry with one URL per platform (source: `CachedExample`). -/
structure CachedExample where
  name : String
  github : String
  netlify : String
  stackblitz : String
  codesandbox : String
  gitpod : String
deriving Repr, DecidableEq

/-- Release metadata body, abstracted as the raw response body. -/
abbrev Release := String

/-- One upstream directory-entry object: `{name, size, html_url}`.
`size` is a JSON number; we embed it as `Int`. -/
structure RawEntry where
  name : String
  size : Int
  html_url : String
deriving Repr, DecidableEq

/-- The JSON payload returned by the upstream listing endpoint: either an
array of directory entries, or anything else (`Array.isArray` fails). -/
inductive ListingJson where
  | arr (entries : List RawEntry)
  | notArr (payload : String)
deriving Repr, DecidableEq

/-- The outbound collaborators: the optional `VITE_GITHUB_TOKEN`, the
"get release by tag" endpoint (status code and body, keyed by the raw ref
whose tag is `astro@<ref>`) and the "list directory contents" endpoint
(keyed by ref). -/
structure Upstream where
  token : Option String
  releaseResp : String → Nat × Release
  listingResp : String → ListingJson

/-- Process-wide mutable state: the two memo caches, outbound call
counters, and the `console.warn` / `console.error` logs. -/
structure World where
  examplesCache : List (String × List CachedExample)
  releaseCache : List (String × Option Release)
  listingCalls : Nat
  releaseCalls : Nat
  warnings : List String
  errors : List String
deriving Repr, DecidableEq

/-- The state at process start: both caches empty, no calls made. -/
def World.init : World := ⟨[], [], 0, 0, [], []⟩

/-- Association-list lookup, modelling `Map.get` / `Map.has`. -/
def alookup {α : Type} : List (String × α) → String → Option α
  | [], _ => none
  | (k', v) :: rest, k => if k' = k then some v else alookup rest k

/-- The one-time-per-call warning emitted when the token is absent. -/
def warnMsg : String :=
  "VITE_GITHUB_TOKEN is undefined. You may run into rate-limiting issues."

/-- `console.warn` when `process.env.VITE_GITHUB_TOKEN` is undefined. -/
def warnIfNoToken (env : Upstream) (w : World) : World :=
  match env.token with
  | none => { w with warnings := w.warnings ++ [warnMsg] }
  | some _ => w

/-- Builds the per-platform URLs for one retained listing entry
(source: the object literal inside `examples.flatMap`). -/
def mkExample (ref : String) (e : RawEntry) : CachedExample :=
  { name := e.name
    github := e.html_url
    netlify := "https://astro.build"
    stackblitz :=
      "https://stackblitz.com/github/withastro/astro/tree/" ++ ref ++
        "/examples/" ++ e.name
    codesandbox :=
      "https://codesandbox.io/p/sandbox/github/withastro/astro/tree/" ++ ref ++
        "/examples/" ++ e.name
    gitpod :=
      "https://gitpod.io/#https://github.com/withastro/astro/tree/" ++ ref ++
        "/examples/" ++ e.name }

/-- The `console.error` line logged when the listing payload is not an
array, carrying the offending payload. -/
def upstreamFormatLog (payload : String) : String :=
  "Unable to fetch templates from GitHub. Expected array, got: " ++ payload

/-- The listing cache fetch (source: `getExamples`). On a cache hit the
cached value is returned unchanged; on a miss it warns if the token is
absent, performs one outbound listing call, fails if the payload is not an
array (logging it first), otherwise keeps entries with `size > 0 ? [] : {...}`
and stores the result under `ref`. -/
def getExamples (env : Upstream) (ref : String) (w : World) :
    Except String (List CachedExample) × World :=
  match alookup w.examplesCache ref with
  | some existing => (.ok existing, w)
  | none =>
    let w := warnIfNoToken env w
    let w := { w with listingCalls := w.listingCalls + 1 }
    match env.listingResp ref with
    | .notArr payload =>
        (.error "Unable to fetch templates from GitHub",
          { w with errors := w.errors ++ [upstreamFormatLog payload] })
    | .arr examples =>
        let values := examples.flatMap fun e =>
          if e.size > 0 then [] else [mkExample ref e]
        (.ok values, { w with examplesCache := (ref, values) :: w.examplesCache })

/-- The release lookup cache (source: `getRelease`). Memoized per raw ref
string, null results included; an uncached ref costs one outbound call and
maps HTTP 200 to parsed metadata, any other status to `none`. -/
def getRelease (env : Upstream) (ref : String) (w : World) :
    Option Release × World :=
  match alookup w.releaseCache ref with
  | some v => (v, w)
  | none =>
    let w := warnIfNoToken env w
    let status := (env.releaseResp ref).1
    let body := (env.releaseResp ref).2
    let release : Option Release := if status = 200 then some body else none
    (release,
      { w with releaseCache := (ref, release) :: w.releaseCache
               releaseCalls := w.releaseCalls + 1 })

/-- The `InvalidReference` message (source: the `throw` in `validateRef`). -/
def invalidRefMsg (name : String) : String :=
  "Invalid version \"" ++ name ++
    "\"! Supported versions are \"next\", \"latest\", or any <a href=\"https://github.com/withastro/astro/releases?q=astro%40\">GitHub release</a>."

/-- The reference validator (source: `validateRef`): `next` and `latest`
are accepted without a lookup; anything else is accepted iff the release
lookup is non-null, otherwise the request fails with `invalidRefMsg`. -/
def validateRef (env : Upstream) (name : String) (w : World) :
    Except String Bool × World :=
  if name = "next" ∨ name = "latest" then (.ok true, w)
  else
    let p := getRelease env name w
    if p.1.isSome then (.ok true, p.2)
    else (.error (invalidRefMsg name), p.2)

/-- The fixed platform set, in insertion order (source: `PLATFORMS`). -/
def PLATFORMS : List String :=
  ["stackblitz", "codesandbox", "netlify", "github", "gitpod"]

/-- Membership in the platform set (source: `isPlatform`). -/
def isPlatform (name : String) : Bool := PLATFORMS.contains name

/-- JavaScript `Array.prototype.join(sep)`. -/
def joinSep (sep : String) : List String → String
  | [] => ""
  | [x] => x
  | x :: y :: xs => x ++ sep ++ joinSep sep (y :: xs)

/-- The `UnsupportedPlatform` message (source: the first `throw` in
`parseReq`), enumerating every platform name. -/
def platformsErrMsg : String :=
  "Unsupported \"on\" query! Supported platforms are:\n  - " ++
    joinSep "\n  - " PLATFORMS

/-- JavaScript `String.prototype.split(sep)` for a one-character
separator, on the character list of the string. -/
def jsSplit (sep : Char) : List Char → List (List Char)
  | [] => [[]]
  | c :: rest =>
    let r := jsSplit sep rest
    if c = sep then [] :: r
    else
      match r with
      | [] => [[c]]
      | h :: t => (c :: h) :: t

/-- `path.replace(/^\//, "")`: strips exactly one leading slash. -/
def stripLeadingSlash (s : String) : String :=
  match s.data with
  | '/' :: rest => String.mk rest
  | _ => s

/-- `context.params.rest?.replace(/^\//, "") ?? ""`. -/
def pathOf (restParam : Option String) : String :=
  match restParam with
  | none => ""
  | some s => stripLeadingSlash s

/-- The parsed request value `{ ref, template, platform }`. -/
structure ParsedReq where
  ref : String
  template : String
  platform : String
deriving Repr, DecidableEq

/-- The request parser (source: `parseReq`). Reads the platform from the
`on` query parameter (default `stackblitz`), strips one leading slash from
the rest path, rejects unsupported platforms, and when the path contains
an `@` splits it, rejects empty segments, validates the ref and
normalizes it into the listing cache key. -/
def parseReq (env : Upstream) (onParam restParam : Option String) (w : World) :
    Except String ParsedReq × World :=
  let platform := onParam.getD "stackblitz"
  let path := pathOf restParam
  if ¬ isPlatform platform then
    (.error platformsErrMsg, w)
  else if path.data.contains '@' then
    let parts := jsSplit '@' path.data
    let template := String.mk (parts.headD [])
    let ref := String.mk ((parts.drop 1).headD [])
    if ref = "" ∨ template = "" then
      (.error "why have you forsaken me", w)
    else
      match validateRef env ref w with
      | (.error e, w') => (.error e, w')
      | (.ok _, w') =>
          let newRef :=
            if ref = "next" then "main"
            else if ref = "latest" then "latest"
            else "astro@" ++ ref
          (.ok { ref := newRef, template := template, platform := platform }, w')
  else
    (.ok { ref := "latest", template := path, platform := platform }, w)

/-- An HTTP response: either a redirect or a plain body with a status. -/
inductive Response where
  | redirect (location : String)
  | plain (status : Nat) (body : String)
deriving Repr, DecidableEq

/-- JavaScript dynamic property access `example[field]` on a
`CachedExample` object: `some` for each own property, `none` (undefined)
otherwise. -/
def lookupField (e : CachedExample) (field : String) : Option String :=
  if field = "name" then some e.name
  else if field = "github" then some e.github
  else if field = "netlify" then some e.netlify
  else if field = "stackblitz" then some e.stackblitz
  else if field = "codesandbox" then some e.codesandbox
  else if field = "gitpod" then some e.gitpod
  else none

/-- The 404 body (source: the `Response` built when no example matches). -/
def notFoundBody (template : String) (names : List String) : String :=
  "Unable to find " ++ template ++ "! Supported templates are:\n  - " ++
    joinSep "\n  - " names

/-- The route handler (source: `export const get`). Root redirects to
`/latest`; otherwise parse, fetch the listing, find the template, and
redirect — any thrown error is logged and becomes a fixed 500. -/
def get (env : Upstream) (pathname : String) (onParam restParam : Option String)
    (w : World) : Response × World :=
  if pathname = "/" then (.redirect "/latest", w)
  else
    match parseReq env onParam restParam w with
    | (.error e, w') =>
        (.plain 500 "An internal error occurred",
          { w' with errors := w'.errors ++ [e] })
    | (.ok pr, w') =>
      match getExamples env pr.ref w' with
      | (.error e, w'') =>
          (.plain 500 "An internal error occurred",
            { w'' with errors := w''.errors ++ [e] })
      | (.ok examples, w'') =>
        match examples.find? (fun x => x.name == pr.template) with
        | none =>
            (.plain 404 (notFoundBody pr.template (examples.map (·.name))), w'')
        | some ex =>
            (.redirect ((lookupField ex pr.platform).getD "undefined"), w'')

/-- The template segment `parseReq` extracts: `path.split("@")[0]`. -/
def templateArg (restParam : Option String) : String :=
  String.mk ((jsSplit '@' (pathOf restParam).data).headD [])

/-- The ref segment `parseReq` extracts and validates:
`path.split("@")[1]`. -/
def refArg (restParam : Option String) : String :=
  String.mk (((jsSplit '@' (pathOf restParam).data).drop 1).headD [])

/-- The ref-to-cache-key normalization `parseReq` applies to an explicit
validated ref (source: the `if/else` chain assigning `value.ref`). -/
def normRef (ref : String) : String :=
  if ref = "next" then "main"
  else if ref = "latest" then "latest"
  else "astro@" ++ ref

/-- Modelled from the spec: the substring of `path` before the first `@`
(the spec-side reading of the template/ref split). -/
def beforeAt (path : String) : String :=
  String.mk (path.data.takeWhile fun c => decide (c ≠ '@'))

/-- Modelled from the spec wording amended by the code: the segment of
`path` between the first `@` and the following `@` (the remainder when
there is only one `@`). -/
def refSegAt (path : String) : String :=
  String.mk
    (((path.data.dropWhile fun c => decide (c ≠ '@')).drop 1).takeWhile
      fun c => decide (c ≠ '@'))

/-- Modelled from the spec: everything after the first `@`, the ref the
claim says the split produces. -/
def afterFirstAt (path : String) : String :=
  String.mk ((path.data.dropWhile fun c => decide (c ≠ '@')).drop 1)

/-- A concrete upstream where every release lookup answers 200 and the
listing is empty; used to exercise the parser on known-good refs. -/
def envAllOk : Upstream := ⟨some "tok", fun _ => (200, "rel"), fun _ => .arr []⟩

/-- A concrete upstream where every release lookup answers 404. -/
def envNotFound : Upstream :=
  ⟨some "tok", fun _ => (404, "missing"), fun _ => .arr []⟩

/-- A concrete upstream whose listing payload is not an array. -/
def envBadListing : Upstream :=
  ⟨some "tok", fun _ => (200, "rel"), fun _ => .notArr "oops"⟩

/-- A concrete upstream listing exactly one directory entry `basics`. -/
def envBasics : Upstream :=
  ⟨some "tok", fun _ => (200, "rel"), fun _ => .arr [⟨"basics", 0, "https://x/basics"⟩]⟩

/-- A concrete upstream listing one entry of negative size. -/
def envNeg : Upstream :=
  ⟨some "tok", fun _ => (200, "rel"), fun _ => .arr [⟨"neg", -1, "https://x/neg"⟩]⟩

/-- A concrete upstream listing a directory entry and a nonzero-size file. -/
def envMix : Upstream :=
  ⟨some "tok", fun _ => (200, "rel"),
    fun _ => .arr [⟨"basics", 0, "https://x/basics"⟩, ⟨"README.md", 42, "https://x/readme"⟩]⟩

end AstroNew

namespace AstroNew

theorem jsSplit_ne_nil (sep : Char) (l : List Char) : jsSplit sep l ≠ [] := by
  induction l with
  | nil => simp [jsSplit]
  | cons c rest ih =>
    simp only [jsSplit]
    split
    · simp
    · cases h : jsSplit sep rest with
      | nil => simp
      | cons a b => simp [h]

theorem jsSplit_head (sep : Char) (l : List Char) :
    (jsSplit sep l).headD [] = l.takeWhile (fun c => decide (c ≠ sep)) := by
  induction l with
  | nil => rfl
  | cons c rest ih =>
    by_cases h : c = sep
    · subst h
      simp [jsSplit, List.takeWhile_cons]
    · cases hr : jsSplit sep rest with
      | nil => exact absurd hr (jsSplit_ne_nil sep rest)
      | cons a b =>
        simp only [jsSplit, if_neg h, hr, List.headD_cons, List.takeWhile_cons]
        simp only [hr, List.headD_cons] at ih
        simp [h, ih]

theorem jsSplit_second (sep : Char) (l : List Char) (h : sep ∈ l) :
    ((jsSplit sep l).drop 1).headD [] =
      ((l.dropWhile (fun c => decide (c ≠ sep))).drop 1).takeWhile
        (fun c => decide (c ≠ sep)) := by
  induction l with
  | nil => cases h
  | cons c rest ih =>
    by_cases hc : c = sep
    · subst hc
      simp only [jsSplit, if_pos rfl, List.drop_succ_cons, List.drop_zero,
        List.dropWhile_cons]
      simpa using jsSplit_head c rest
    · have hrest : sep ∈ rest := by
        rcases List.mem_cons.mp h with h1 | h2
        · exact absurd h1.symm hc
        · exact h2
      cases hr : jsSplit sep rest with
      | nil => exact absurd hr (jsSplit_ne_nil sep rest)
      | cons a b =>
        simp only [jsSplit, if_neg hc, hr, List.drop_succ_cons, List.drop_zero,
          List.dropWhile_cons]
        have := ih hrest
        simp only [hr, List.drop_succ_cons, List.drop_zero] at this
        simpa [hc] using this

theorem infix_append_right {α : Type} {l r : List α} (m : List α)
    (h : l <:+: r) : l <:+: m ++ r := by
  obtain ⟨s, t, rfl⟩ := h
  exact ⟨m ++ s, t, by simp⟩

theorem infix_append_left {α : Type} {l m : List α} (r : List α)
    (h : l <:+: m) : l <:+: m ++ r := by
  obtain ⟨s, t, rfl⟩ := h
  exact ⟨s, t ++ r, by simp⟩

theorem infix_joinSep {x : String} (sep : String) {l : List String}
    (h : x ∈ l) : x.data <:+: (joinSep sep l).data := by
  induction l with
  | nil => cases h
  | cons y ys ih =>
    cases ys with
    | nil =>
      rcases List.mem_cons.mp h with rfl | h2
      · exact List.infix_refl _
      · cases h2
    | cons z zs =>
      rcases List.mem_cons.mp h with rfl | h2
      · show x.data <:+: (x ++ sep ++ joinSep sep (z :: zs)).data
        rw [String.data_append, String.data_append]
        exact infix_append_left _ (infix_append_left _ (List.infix_refl _))
      · show x.data <:+: (y ++ sep ++ joinSep sep (z :: zs)).data
        rw [String.data_append, String.data_append]
        rw [List.append_assoc]
        exact infix_append_right _ (infix_append_right _ (ih h2))

theorem flatMap_size_filter (ref : String) (entries : List RawEntry) :
    (entries.flatMap fun e => if e.size > 0 then [] else [mkExample ref e]) =
      (entries.filter fun e => decide (e.size ≤ 0)).map (mkExample ref) := by
  induction entries with
  | nil => rfl
  | cons e rest ih =>
    by_cases h : e.size > 0
    · have h2 : ¬ e.size ≤ 0 := by omega
      simp [List.flatMap_cons, List.filter_cons, h, h2, ih]
    · have h2 : e.size ≤ 0 := by omega
      simp [List.flatMap_cons, List.filter_cons, h, h2, ih]

end AstroNew

namespace AstroNew

theorem warnIfNoToken_examplesCache (env : Upstream) (w : World) :
    (warnIfNoToken env w).examplesCache = w.examplesCache := by
  unfold warnIfNoToken
  cases env.token <;> rfl

theorem warnIfNoToken_releaseCache (env : Upstream) (w : World) :
    (warnIfNoToken env w).releaseCache = w.releaseCache := by
  unfold warnIfNoToken
  cases env.token <;> rfl

theorem warnIfNoToken_listingCalls (env : Upstream) (w : World) :
    (warnIfNoToken env w).listingCalls = w.listingCalls := by
  unfold warnIfNoToken
  cases env.token <;> rfl

theorem warnIfNoToken_releaseCalls (env : Upstream) (w : World) :
    (warnIfNoToken env w).releaseCalls = w.releaseCalls := by
  unfold warnIfNoToken
  cases env.token <;> rfl

theorem warnIfNoToken_errors (env : Upstream) (w : World) :
    (warnIfNoToken env w).errors = w.errors := by
  unfold warnIfNoToken
  cases env.token <;> rfl

theorem templateArg_eq_beforeAt (restP : Option String) :
    templateArg restP = beforeAt (pathOf restP) := by
  unfold templateArg beforeAt
  rw [jsSplit_head]

theorem refArg_eq_refSegAt (restP : Option String)
    (hmem : '@' ∈ (pathOf restP).data) :
    refArg restP = refSegAt (pathOf restP) := by
  unfold refArg refSegAt
  rw [jsSplit_second _ _ hmem]

theorem parseReq_ok_cases (env : Upstream) (onP restP : Option String) (w : World)
    (pr : ParsedReq) (w' : World)
    (h : parseReq env onP restP w = (.ok pr, w')) :
    pr.platform = onP.getD "stackblitz" ∧
    isPlatform (onP.getD "stackblitz") = true ∧
    ((pathOf restP).data.contains '@' = false →
       pr.ref = "latest" ∧ pr.template = pathOf restP ∧ w' = w) ∧
    ((pathOf restP).data.contains '@' = true →
       pr.template = templateArg restP ∧
       templateArg restP ≠ "" ∧ refArg restP ≠ "" ∧
       pr.ref = normRef (refArg restP) ∧
       ∃ b, validateRef env (refArg restP) w = (.ok b, w')) := by
  simp only [parseReq] at h
  split at h
  · simp at h
  · next hplat =>
    rw [not_not] at hplat
    split at h
    · next hat =>
      split at h
      · simp at h
      · next hseg =>
        push_neg at hseg
        split at h
        · next e w2 hv => simp at h
        · next b w2 hv =>
          rw [Prod.mk.injEq] at h
          obtain ⟨h1, h2⟩ := h
          injection h1 with h1
          subst h1
          subst h2
          refine ⟨rfl, hplat, ?_, ?_⟩
          · intro hcf
            rw [hat] at hcf
            cases hcf
          · intro _
            exact ⟨rfl, hseg.2, hseg.1, rfl, ⟨b, hv⟩⟩
    · next hat =>
      rw [Prod.mk.injEq] at h
      obtain ⟨h1, h2⟩ := h
      injection h1 with h1
      subst h1
      subst h2
      refine ⟨rfl, hplat, ?_, ?_⟩
      · intro _
        exact ⟨rfl, rfl, rfl⟩
      · intro hct
        exact absurd hct hat

end AstroNew

namespace AstroNew

/-- Claim C1 (counterexample): on the path "a@b@c" the parser does not
take the entire substring after the first at-sign as the ref. It splits
on every at-sign and keeps only the second segment: the request parses
successfully with ref segment "b" (the release lookup is performed for
"b", and the cache key becomes "astro@b"), not "b@c". -/
theorem C1_counterexample :
    (parseReq envAllOk none (some "a@b@c") World.init).1
        = .ok { ref := "astro@b", template := "a", platform := "stackblitz" } ∧
    (parseReq envAllOk none (some "a@b@c") World.init).2.releaseCache
        = [("b", some "rel")] ∧
    ("astro@b" : String) ≠ "astro@b@c" :=
  ⟨rfl, rfl, by decide⟩

/-- Claim C1 (amended): for a path containing an at-sign, the parser
splits the path on every at-sign; the template is the segment before the
first at-sign and the ref is the segment between the first and second
at-signs (the whole remainder when only one at-sign occurs). It fails
with the malformed-reference error exactly when either of those two
segments is empty; otherwise it validates the ref segment and succeeds
with the normalized ref iff validation succeeds. -/
theorem C1_split_on_at (env : Upstream) (onP restP : Option String) (w : World)
    (hplat : isPlatform (onP.getD "stackblitz") = true)
    (hat : (pathOf restP).data.contains '@' = true) :
    templateArg restP = beforeAt (pathOf restP) ∧
    refArg restP = refSegAt (pathOf restP) ∧
    ((beforeAt (pathOf restP) = "" ∨ refSegAt (pathOf restP) = "") →
       parseReq env onP restP w = (.error "why have you forsaken me", w)) ∧
    (beforeAt (pathOf restP) ≠ "" → refSegAt (pathOf restP) ≠ "" →
       (∀ e w2, validateRef env (refSegAt (pathOf restP)) w = (.error e, w2) →
          parseReq env onP restP w = (.error e, w2)) ∧
       (∀ b w2, validateRef env (refSegAt (pathOf restP)) w = (.ok b, w2) →
          parseReq env onP restP w =
            (.ok { ref := normRef (refSegAt (pathOf restP)),
                   template := beforeAt (pathOf restP),
                   platform := onP.getD "stackblitz" }, w2))) := by
  have hmem : '@' ∈ (pathOf restP).data := List.elem_iff.mp hat
  have ht := templateArg_eq_beforeAt restP
  have hr := refArg_eq_refSegAt restP hmem
  refine ⟨ht, hr, ?_, ?_⟩
  · intro hempty
    have hcond : refArg restP = "" ∨ templateArg restP = "" := by
      rw [ht, hr]
      tauto
    simp only [refArg, templateArg] at hcond
    simp only [parseReq]
    rw [if_neg (not_not_intro hplat), if_pos hat, if_pos hcond]
  · intro h1 h2
    have hcond : ¬ (refArg restP = "" ∨ templateArg restP = "") := by
      rw [ht, hr]
      tauto
    simp only [refArg, templateArg] at hcond
    constructor
    · intro e w2 hv
      rw [← hr] at hv
      simp only [refArg] at hv
      simp only [parseReq]
      rw [if_neg (not_not_intro hplat), if_pos hat, if_neg hcond, hv]
    · intro b w2 hv
      rw [← hr] at hv
      simp only [refArg] at hv
      simp only [parseReq]
      rw [if_neg (not_not_intro hplat), if_pos hat, if_neg hcond, hv]
      rw [← ht, ← hr]
      simp only [templateArg, refArg, normRef]

/-- Witness for claim C1's amended theorem: the path "@b" has an empty
template side, so the parser fails with the malformed-reference error
and leaves the world untouched. -/
theorem C1_witness :
    parseReq envAllOk none (some "@b") World.init
      = (.error "why have you forsaken me", World.init) :=
  (C1_split_on_at envAllOk none (some "@b") World.init (by decide)
      (by decide)).2.2.1 (by decide)

/-- Claim C2: the ref used as the listing cache key after a successful
parse is "latest" when the path contains no at-sign; otherwise it is the
normalization of the explicit validated ref segment: "next" becomes
"main", "latest" stays "latest", and anything else becomes the prefixed
tag "astro@(ref)". -/
theorem C2_cache_key (env : Upstream) (onP restP : Option String) (w : World)
    (pr : ParsedReq) (w' : World)
    (h : parseReq env onP restP w = (.ok pr, w')) :
    pr.ref = if (pathOf restP).data.contains '@' = true
             then normRef (refSegAt (pathOf restP)) else "latest" := by
  obtain ⟨-, -, hno, hyes⟩ := parseReq_ok_cases env onP restP w pr w' h
  by_cases hat : (pathOf restP).data.contains '@' = true
  · obtain ⟨-, -, -, href, -⟩ := hyes hat
    rw [if_pos hat, href,
      refArg_eq_refSegAt restP (List.elem_iff.mp hat)]
  · have hatf : (pathOf restP).data.contains '@' = false := by
      revert hat
      cases (pathOf restP).data.contains '@' <;> simp
    rw [if_neg hat]
    exact (hno hatf).1

/-- Witness for claim C2: parsing "basics@1.2.3" against an upstream that
knows the release yields the cache key "astro@1.2.3". -/
theorem C2_witness :
    ({ ref := "astro@1.2.3", template := "basics",
       platform := "stackblitz" } : ParsedReq).ref
      = (if (pathOf (some "basics@1.2.3")).data.contains '@' = true
         then normRef (refSegAt (pathOf (some "basics@1.2.3"))) else "latest") :=
  C2_cache_key envAllOk none (some "basics@1.2.3") World.init
    { ref := "astro@1.2.3", template := "basics", platform := "stackblitz" }
    { examplesCache := [], releaseCache := [("1.2.3", some "rel")],
      listingCalls := 0, releaseCalls := 1, warnings := [], errors := [] }
    rfl

end AstroNew

namespace AstroNew

theorem getRelease_hit (env : Upstream) (ref : String) (w : World)
    (v : Option Release) (h : alookup w.releaseCache ref = some v) :
    getRelease env ref w = (v, w) := by
  simp only [getRelease, h]

theorem getRelease_miss (env : Upstream) (ref : String) (w : World)
    (h : alookup w.releaseCache ref = none) :
    getRelease env ref w
      = ((if (env.releaseResp ref).1 = 200
          then some (env.releaseResp ref).2 else none),
         { warnIfNoToken env w with
             releaseCache :=
               (ref, if (env.releaseResp ref).1 = 200
                     then some (env.releaseResp ref).2 else none)
                 :: (warnIfNoToken env w).releaseCache
             releaseCalls := (warnIfNoToken env w).releaseCalls + 1 }) := by
  simp only [getRelease, h]

set_option maxRecDepth 8192 in
/-- Claim C3: the validator accepts "next" and "latest" unchanged without
touching the world (so without any outbound lookup); for any other name
it succeeds exactly when the release lookup is non-null, and otherwise
fails with a message that embeds the invalid value and the literals
"next", "latest" and the upstream releases URL. -/
theorem C3_validateRef (env : Upstream) (name : String) (w : World) :
    ((name = "next" ∨ name = "latest") → validateRef env name w = (.ok true, w)) ∧
    (name ≠ "next" → name ≠ "latest" →
      (((validateRef env name w).1 = .ok true)
          ↔ (getRelease env name w).1.isSome = true) ∧
      ((getRelease env name w).1.isSome = false →
         validateRef env name w
           = (.error (invalidRefMsg name), (getRelease env name w).2)) ∧
      name.data <:+: (invalidRefMsg name).data ∧
      ("next" : String).data <:+: (invalidRefMsg name).data ∧
      ("latest" : String).data <:+: (invalidRefMsg name).data ∧
      ("https://github.com/withastro/astro/releases" : String).data
          <:+: (invalidRefMsg name).data) := by
  constructor
  · intro h
    unfold validateRef
    rw [if_pos h]
  · intro h1 h2
    have hcond : ¬ (name = "next" ∨ name = "latest") := by tauto
    have hmsg : (invalidRefMsg name).data
        = ("Invalid version \"" : String).data ++ name.data ++
          ("\"! Supported versions are \"next\", \"latest\", or any <a href=\"https://github.com/withastro/astro/releases?q=astro%40\">GitHub release</a>." : String).data := by
      unfold invalidRefMsg
      rw [String.data_append, String.data_append]
    refine ⟨?_, ?_, ?_, ?_, ?_, ?_⟩
    · unfold validateRef
      rw [if_neg hcond]
      by_cases hs : (getRelease env name w).1.isSome = true
      · rw [if_pos hs]
        simp [hs]
      · rw [if_neg hs]
        simp only [Bool.not_eq_true] at hs
        simp [hs]
    · intro hs
      unfold validateRef
      rw [if_neg hcond, if_neg (by rw [hs]; simp)]
    · rw [hmsg]
      exact ⟨("Invalid version \"" : String).data, _, rfl⟩
    · rw [hmsg]
      exact infix_append_right _ (by decide)
    · rw [hmsg]
      exact infix_append_right _ (by decide)
    · rw [hmsg]
      exact infix_append_right _ (by decide)

/-- Witness for claim C3: with an upstream answering 404, validating
"nope" fails with the invalid-reference message. -/
theorem C3_witness :
    validateRef envNotFound "nope" World.init
        = (.error (invalidRefMsg "nope"),
           (getRelease envNotFound "nope" World.init).2) :=
  (((C3_validateRef envNotFound "nope" World.init).2 (by decide)
      (by decide)).2.1) rfl

/-- Claim C4: the release lookup is a process-lifetime memo per raw ref
string: a cache hit returns the stored value (null included) with the
world unchanged; a miss performs exactly one outbound call, maps HTTP 200
to the parsed body and any other status to null, and stores the result
under the raw ref; stored entries persist, and an immediate repeat call
returns the same value with no further outbound request. -/
theorem C4_getRelease (env : Upstream) (ref : String) (w : World) :
    (∀ v, alookup w.releaseCache ref = some v → getRelease env ref w = (v, w)) ∧
    (alookup w.releaseCache ref = none →
       (getRelease env ref w).1
           = (if (env.releaseResp ref).1 = 200
              then some (env.releaseResp ref).2 else none) ∧
       (getRelease env ref w).2.releaseCalls = w.releaseCalls + 1 ∧
       alookup (getRelease env ref w).2.releaseCache ref
           = some (getRelease env ref w).1) ∧
    (∀ k v, alookup w.releaseCache k = some v →
       alookup (getRelease env ref w).2.releaseCache k = some v) ∧
    (getRelease env ref (getRelease env ref w).2
       = ((getRelease env ref w).1, (getRelease env ref w).2)) ∧
    (getRelease env ref w).2.examplesCache = w.examplesCache ∧
    (getRelease env ref w).2.listingCalls = w.listingCalls := by
  cases hcache : alookup w.releaseCache ref with
  | some v =>
    have hr := getRelease_hit env ref w v hcache
    refine ⟨?_, ?_, ?_, ?_, ?_, ?_⟩
    · intro v' hv'
      injection hv' with hv'
      subst hv'
      exact hr
    · intro hn
      cases hn
    · intro k v' hv'
      rw [hr]
      exact hv'
    · rw [hr]
      exact getRelease_hit env ref w v hcache
    · rw [hr]
    · rw [hr]
  | none =>
    have hr := getRelease_miss env ref w hcache
    refine ⟨?_, ?_, ?_, ?_, ?_, ?_⟩
    · intro v' hv'
      cases hv'
    · intro _
      refine ⟨by rw [hr], ?_, ?_⟩
      · rw [hr]
        simp [warnIfNoToken_releaseCalls]
      · rw [hr]
        simp [alookup]
    · intro k v' hv'
      have hk : ¬ (ref = k) := by
        intro he
        rw [he] at hcache
        rw [hcache] at hv'
        cases hv'
      rw [hr]
      simp only [alookup, if_neg hk, warnIfNoToken_releaseCache]
      exact hv'
    · have hx : alookup (getRelease env ref w).2.releaseCache ref
          = some (getRelease env ref w).1 := by
        rw [hr]
        simp [alookup]
      exact getRelease_hit env ref _ _ hx
    · rw [hr]
      simp [warnIfNoToken_examplesCache]
    · rw [hr]
      simp [warnIfNoToken_listingCalls]

/-- Witness for claim C4: a first lookup of "1.2.3" against a
200-answering upstream returns the parsed body, counts one outbound
call, stores the result, and an immediate repeat call is a pure cache
hit leaving the world unchanged. -/
theorem C4_witness :
    alookup (World.init).releaseCache "1.2.3" = none ∧
    ((getRelease envAllOk "1.2.3" World.init).1
        = (if (envAllOk.releaseResp "1.2.3").1 = 200
           then some (envAllOk.releaseResp "1.2.3").2 else none) ∧
     (getRelease envAllOk "1.2.3" World.init).2.releaseCalls
        = World.init.releaseCalls + 1 ∧
     alookup (getRelease envAllOk "1.2.3" World.init).2.releaseCache "1.2.3"
        = some (getRelease envAllOk "1.2.3" World.init).1) ∧
    getRelease envAllOk "1.2.3" (getRelease envAllOk "1.2.3" World.init).2
      = ((getRelease envAllOk "1.2.3" World.init).1,
         (getRelease envAllOk "1.2.3" World.init).2) :=
  ⟨rfl, (C4_getRelease envAllOk "1.2.3" World.init).2.1 rfl,
    (C4_getRelease envAllOk "1.2.3" World.init).2.2.2.1⟩

end AstroNew

namespace AstroNew

theorem getExamples_hit (env : Upstream) (ref : String) (w : World)
    (v : List CachedExample) (h : alookup w.examplesCache ref = some v) :
    getExamples env ref w = (.ok v, w) := by
  simp only [getExamples, h]

theorem getExamples_miss_arr (env : Upstream) (ref : String) (w : World)
    (entries : List RawEntry) (hm : alookup w.examplesCache ref = none)
    (hresp : env.listingResp ref = .arr entries) :
    getExamples env ref w
      = (.ok (entries.flatMap fun e => if e.size > 0 then [] else [mkExample ref e]),
         { warnIfNoToken env w with
             listingCalls := (warnIfNoToken env w).listingCalls + 1
             examplesCache :=
               (ref, entries.flatMap fun e => if e.size > 0 then [] else [mkExample ref e])
                 :: (warnIfNoToken env w).examplesCache }) := by
  simp only [getExamples, hm, hresp]

theorem getExamples_miss_notArr (env : Upstream) (ref : String) (w : World)
    (payload : String) (hm : alookup w.examplesCache ref = none)
    (hresp : env.listingResp ref = .notArr payload) :
    getExamples env ref w
      = (.error "Unable to fetch templates from GitHub",
         { warnIfNoToken env w with
             listingCalls := (warnIfNoToken env w).listingCalls + 1
             errors := (warnIfNoToken env w).errors ++ [upstreamFormatLog payload] }) := by
  simp only [getExamples, hm, hresp]

/-- Claim C5: the template listing is memoized per exact ref string: a
cache hit returns the stored sequence with the world unchanged (zero
outbound calls); the first successful fetch performs exactly one outbound
call and stores the sequence under that ref; stored entries persist, and
a repeat call after any successful call returns the stored sequence with
the world unchanged. -/
theorem C5_getExamples (env : Upstream) (ref : String) (w : World) :
    (∀ v, alookup w.examplesCache ref = some v →
       getExamples env ref w = (.ok v, w)) ∧
    (∀ entries, alookup w.examplesCache ref = none →
       env.listingResp ref = .arr entries →
       ∃ values, (getExamples env ref w).1 = .ok values ∧
         alookup (getExamples env ref w).2.examplesCache ref = some values ∧
         (getExamples env ref w).2.listingCalls = w.listingCalls + 1) ∧
    (∀ k v, alookup w.examplesCache k = some v →
       alookup (getExamples env ref w).2.examplesCache k = some v) ∧
    (∀ values, (getExamples env ref w).1 = .ok values →
       getExamples env ref (getExamples env ref w).2
         = (.ok values, (getExamples env ref w).2)) ∧
    (getExamples env ref w).2.releaseCache = w.releaseCache := by
  cases hcache : alookup w.examplesCache ref with
  | some v =>
    have hr := getExamples_hit env ref w v hcache
    refine ⟨?_, ?_, ?_, ?_, ?_⟩
    · intro v' hv'
      injection hv' with hv'
      subst hv'
      exact hr
    · intro entries hn
      cases hn
    · intro k v' hv'
      rw [hr]
      exact hv'
    · intro values hval
      rw [hr] at hval ⊢
      injection hval with hval
      subst hval
      exact getExamples_hit env ref w v hcache
    · rw [hr]
  | none =>
    cases hresp : env.listingResp ref with
    | arr entries =>
      have hr := getExamples_miss_arr env ref w entries hcache hresp
      refine ⟨?_, ?_, ?_, ?_, ?_⟩
      · intro v' hv'
        cases hv'
      · intro entries' _ hresp'
        injection hresp' with hresp'
        subst hresp'
        refine ⟨_, by rw [hr], ?_, ?_⟩
        · rw [hr]
          simp [alookup]
        · rw [hr]
          simp [warnIfNoToken_listingCalls]
      · intro k v' hv'
        have hk : ¬ (ref = k) := by
          intro he
          rw [he] at hcache
          rw [hcache] at hv'
          cases hv'
        rw [hr]
        simp only [alookup, if_neg hk, warnIfNoToken_examplesCache]
        exact hv'
      · intro values hval
        have hx : alookup (getExamples env ref w).2.examplesCache ref
            = some values := by
          rw [hr] at hval ⊢
          injection hval with hval
          subst hval
          simp [alookup]
        exact getExamples_hit env ref _ values hx
      · rw [hr]
        simp [warnIfNoToken_releaseCache]
    | notArr payload =>
      have hr := getExamples_miss_notArr env ref w payload hcache hresp
      refine ⟨?_, ?_, ?_, ?_, ?_⟩
      · intro v' hv'
        cases hv'
      · intro entries' _ hresp'
        cases hresp'
      · intro k v' hv'
        have hk : ¬ (ref = k) := by
          intro he
          rw [he] at hcache
          rw [hcache] at hv'
          cases hv'
        rw [hr]
        simp only [warnIfNoToken_examplesCache]
        exact hv'
      · intro values hval
        rw [hr] at hval
        cases hval
      · rw [hr]
        simp [warnIfNoToken_releaseCache]

/-- Witness for claim C5: the first fetch for "latest" against the
one-entry upstream succeeds, and the immediate second call returns the
stored sequence with the world unchanged. -/
theorem C5_witness :
    (getExamples envBasics "latest" World.init).1
        = .ok [mkExample "latest" ⟨"basics", 0, "https://x/basics"⟩] ∧
    getExamples envBasics "latest" (getExamples envBasics "latest" World.init).2
      = (.ok [mkExample "latest" ⟨"basics", 0, "https://x/basics"⟩],
         (getExamples envBasics "latest" World.init).2) :=
  ⟨rfl, (C5_getExamples envBasics "latest" World.init).2.2.2.1
    [mkExample "latest" ⟨"basics", 0, "https://x/basics"⟩] rfl⟩

/-- Claim C6 (counterexample): an upstream entry with the nonzero size -1
is not excluded: the listing produced from the single entry (name "neg",
size -1) contains that entry, although its size differs from 0. -/
theorem C6_counterexample :
    (getExamples envNeg "latest" World.init).1
        = .ok [mkExample "latest" ⟨"neg", -1, "https://x/neg"⟩] ∧
    ((-1 : Int) = 0 ↔ False) :=
  ⟨rfl, by decide⟩

/-- Claim C6 (amended): an upstream entry yields a template entry exactly
when its size is not positive (the code excludes entries with size
greater than 0, which coincides with keeping only size 0 for the
non-negative sizes the upstream reports); the order of retained entries
follows the upstream array order. -/
theorem C6_size_filter (env : Upstream) (ref : String) (w : World)
    (entries : List RawEntry)
    (hmiss : alookup w.examplesCache ref = none)
    (hresp : env.listingResp ref = .arr entries) :
    (getExamples env ref w).1
      = .ok ((entries.filter fun e => decide (e.size ≤ 0)).map (mkExample ref)) := by
  rw [getExamples_miss_arr env ref w entries hmiss hresp]
  rw [flatMap_size_filter]

/-- Witness for claim C6's amended theorem: the mixed listing (directory
entry of size 0, file of size 42) yields exactly the size-0 entry. -/
theorem C6_witness :
    (getExamples envMix "latest" World.init).1
      = .ok (([⟨"basics", 0, "https://x/basics"⟩,
               ⟨"README.md", 42, "https://x/readme"⟩].filter
          (fun e => decide (e.size ≤ 0))).map (mkExample "latest")) :=
  C6_size_filter envMix "latest" World.init
    [⟨"basics", 0, "https://x/basics"⟩, ⟨"README.md", 42, "https://x/readme"⟩]
    rfl rfl

/-- Claim C7: when the listing payload is not an array, the fetch fails
with the upstream-format error after logging the offending payload, and
nothing is stored in the listing cache (which is left exactly as it
was). -/
theorem C7_not_array (env : Upstream) (ref : String) (w : World)
    (payload : String)
    (hmiss : alookup w.examplesCache ref = none)
    (hresp : env.listingResp ref = .notArr payload) :
    (getExamples env ref w).1 = .error "Unable to fetch templates from GitHub" ∧
    (getExamples env ref w).2.examplesCache = w.examplesCache ∧
    (getExamples env ref w).2.errors = w.errors ++ [upstreamFormatLog payload] := by
  rw [getExamples_miss_notArr env ref w payload hmiss hresp]
  refine ⟨rfl, ?_, ?_⟩
  · simp [warnIfNoToken_examplesCache]
  · simp [warnIfNoToken_errors]

/-- Witness for claim C7: the not-an-array upstream fails the fetch, logs
the payload, and stores nothing. -/
theorem C7_witness :
    (getExamples envBadListing "latest" World.init).1
        = .error "Unable to fetch templates from GitHub" ∧
    (getExamples envBadListing "latest" World.init).2.examplesCache
        = World.init.examplesCache ∧
    (getExamples envBadListing "latest" World.init).2.errors
        = World.init.errors ++ [upstreamFormatLog "oops"] :=
  C7_not_array envBadListing "latest" World.init "oops" rfl rfl

end AstroNew

namespace AstroNew

set_option maxRecDepth 8192 in
/-- Claim C8: an absent "on" query parameter defaults the platform to
"stackblitz"; a present value outside the fixed platform set makes the
parser fail with the platform error message — which embeds every valid
platform name — leaving the world unchanged, hence before any outbound
network call. -/
theorem C8_platform (env : Upstream) (restP : Option String) (w : World) :
    (∀ pr w', parseReq env none restP w = (.ok pr, w') →
       pr.platform = "stackblitz") ∧
    (∀ p, ¬ isPlatform p = true →
       parseReq env (some p) restP w = (.error platformsErrMsg, w)) ∧
    (∀ q, q ∈ PLATFORMS → q.data <:+: platformsErrMsg.data) := by
  refine ⟨?_, ?_, ?_⟩
  · intro pr w' h
    exact (parseReq_ok_cases env none restP w pr w' h).1
  · intro p hp
    have hp' : ¬ isPlatform ((some p).getD "stackblitz") = true := hp
    simp only [parseReq]
    rw [if_pos hp']
  · intro q hq
    simp only [PLATFORMS, List.mem_cons, List.mem_singleton,
      List.not_mem_nil, or_false] at hq
    rcases hq with rfl | rfl | rfl | rfl | rfl <;> decide

/-- Witness for claim C8: the unsupported platform "vercel" is rejected
with the enumerating message and an untouched world. -/
theorem C8_witness :
    parseReq envAllOk (some "vercel") (some "basics") World.init
      = (.error platformsErrMsg, World.init) :=
  (C8_platform envAllOk (some "basics") World.init).2.1 "vercel" (by decide)

/-- Claim C9: for a non-root request, a template absent from the fetched
listing yields a 404 whose body embeds every template name of that
listing, while every error thrown by the parse/validate/fetch chain is
caught at the top level and becomes a 500 with the fixed body
"An internal error occurred". -/
theorem C9_handler (env : Upstream) (pathname : String)
    (onP restP : Option String) (w : World) (hroot : pathname ≠ "/") :
    (∀ e w', parseReq env onP restP w = (.error e, w') →
       (get env pathname onP restP w).1
         = .plain 500 "An internal error occurred") ∧
    (∀ pr w' e w'', parseReq env onP restP w = (.ok pr, w') →
       getExamples env pr.ref w' = (.error e, w'') →
       (get env pathname onP restP w).1
         = .plain 500 "An internal error occurred") ∧
    (∀ pr w' exs w'', parseReq env onP restP w = (.ok pr, w') →
       getExamples env pr.ref w' = (.ok exs, w'') →
       exs.find? (fun x => x.name == pr.template) = none →
       (get env pathname onP restP w).1
           = .plain 404 (notFoundBody pr.template (exs.map (·.name))) ∧
       (∀ e, e ∈ exs →
          e.name.data <:+: (notFoundBody pr.template (exs.map (·.name))).data)) := by
  refine ⟨?_, ?_, ?_⟩
  · intro e w' hp
    simp only [get, if_neg hroot, hp]
  · intro pr w' e w'' hp hx
    simp only [get, if_neg hroot, hp, hx]
  · intro pr w' exs w'' hp hx hf
    refine ⟨?_, ?_⟩
    · simp only [get, if_neg hroot, hp, hx, hf]
    · intro e he
      have hmem : e.name ∈ exs.map (·.name) := List.mem_map_of_mem _ he
      have hinf := infix_joinSep ("\n  - ") hmem
      unfold notFoundBody
      rw [String.data_append]
      exact infix_append_right _ hinf

/-- Witness for claim C9: requesting the unknown template "nope" against
the one-template listing produces the 404 body enumerating "basics". -/
theorem C9_witness :
    (get envBasics "/nope" none (some "nope") World.init).1
      = .plain 404 (notFoundBody "nope"
          ([mkExample "latest" ⟨"basics", 0, "https://x/basics"⟩].map (·.name))) :=
  ((C9_handler envBasics "/nope" none (some "nope") World.init
        (by decide)).2.2
      { ref := "latest", template := "nope", platform := "stackblitz" }
      World.init
      [mkExample "latest" ⟨"basics", 0, "https://x/basics"⟩]
      { examplesCache :=
          [("latest", [mkExample "latest" ⟨"basics", 0, "https://x/basics"⟩])],
        releaseCache := [], listingCalls := 1, releaseCalls := 0,
        warnings := [], errors := [] }
      rfl rfl rfl).1

/-- Claim C10: after any successful parse the platform is a member of the
fixed platform set, and dynamic field access on a template entry with
that platform always finds a defined string (never undefined). -/
theorem C10_platform_total (env : Upstream) (onP restP : Option String)
    (w : World) (pr : ParsedReq) (w' : World) (e : CachedExample)
    (h : parseReq env onP restP w = (.ok pr, w')) :
    (lookupField e pr.platform).isSome = true := by
  obtain ⟨hp, hplat, -, -⟩ := parseReq_ok_cases env onP restP w pr w' h
  rw [hp]
  have hplat' : PLATFORMS.contains (onP.getD "stackblitz") = true := hplat
  have hmem : onP.getD "stackblitz" ∈ PLATFORMS := List.elem_iff.mp hplat'
  simp only [PLATFORMS, List.mem_cons, List.mem_singleton,
    List.not_mem_nil, or_false] at hmem
  rcases hmem with h1 | h1 | h1 | h1 | h1 <;> rw [h1] <;> rfl

/-- Witness for claim C10: the parsed request for "basics" carries the
platform "stackblitz", under which field access on a concrete template
entry is defined. -/
theorem C10_witness :
    (lookupField (mkExample "latest" ⟨"basics", 0, "https://x/basics"⟩)
        ({ ref := "latest", template := "basics",
           platform := "stackblitz" } : ParsedReq).platform).isSome = true :=
  C10_platform_total envAllOk none (some "basics") World.init
    { ref := "latest", template := "basics", platform := "stackblitz" }
    World.init (mkExample "latest" ⟨"basics", 0, "https://x/basics"⟩) rfl

end AstroNew
